import Mathlib

/-!
Shallow embedding of the containerd-backed image service adapter
(daemon/containerd: image.go, image_changes.go, image_exporter.go).

External collaborators (content engine, snapshotter, reference parser,
converter) are modelled as explicit result fields of a per-call world
record; the adapter control flow is translated statement by statement.
-/

namespace Moby

/-- Go error values: a leaf error with a message, a NotFound-kind error
(errdefs.NotFound), a contextual wrap (errors.Wrap / fmt.Errorf with a
literal message and a wrapped cause), and a combination built by
fmt.Errorf from another error's message and a wrapped cause. -/
inductive GoErr where
  | base (msg : String)
  | notFound (msg : String)
  | wrapMsg (msg : String) (inner : GoErr)
  | combine (outer inner : GoErr)
deriving DecidableEq

/-- OCI platform value: os, architecture, variant (the three fields the
containerd matcher compares). -/
structure Platform where
  os : String
  architecture : String
  variant : String
deriving DecidableEq

/-- OCI content descriptor: media type, digest, optional platform. -/
structure Descriptor where
  mediaType : String
  digest : String
  platform : Option Platform
deriving DecidableEq

/-- A stored image record: unique name plus target descriptor. -/
structure ImageRecord where
  name : String
  target : Descriptor
deriving DecidableEq

/-- MediaType classifier from containerd images.IsIndexType. -/
def isIndexType (mt : String) : Bool :=
  mt == "application/vnd.oci.image.index.v1+json" ||
    mt == "application/vnd.docker.distribution.manifest.list.v2+json"

/-- MediaType classifier from containerd images.IsManifestType. -/
def isManifestType (mt : String) : Bool :=
  mt == "application/vnd.oci.image.manifest.v1+json" ||
    mt == "application/vnd.docker.distribution.manifest.v2+json"

/-! ## RootFS child relation (spec section 4.8) -/

/-- Rootfs value as in ocispec.RootFS: a type tag and an ordered diff-ID
list (diff IDs modelled as strings). -/
structure RootFS where
  typ : String
  diffIDs : List String
deriving DecidableEq

/-- Modelled from the spec: the file defining isRootfsChildOf is not under
src (only its test TestIsRootfsChildOf is). Spec section 4.8: true iff the
parent diff-ID list is a strict prefix of the child diff-ID list. -/
def isRootfsChildOf (child parent : RootFS) : Bool :=
  parent.diffIDs.isPrefixOf child.diffIDs &&
    decide (parent.diffIDs.length < child.diffIDs.length)

/-- Mirror of the toRootfs test helper: one character is one distinct
diff ID. -/
def toRootfs (values : String) : RootFS :=
  ⟨"layers", values.toList.map (fun c => String.mk [c])⟩

/-! ## Short-ID resolution (image.go, resolveImage, lines 158-191) -/

/-- Loop body of the multi-match branch of resolveImage: walk the listed
records, return the first whose name equals the candidate named form,
otherwise accumulate every target digest seen. -/
def shortIdScan (ref : String) :
    List ImageRecord → List String → Option ImageRecord × List String
  | [], ds => (none, ds)
  | r :: rs, ds =>
    if r.name = ref then (some r, ds)
    else shortIdScan ref rs (ds ++ [r.target.digest])

/-- Short-ID branch of resolveImage given the result of the store List
call: zero matches is NotFound, a single match is returned, multiple
matches go through the exact-name / distinct-digest discrimination. -/
def resolveShortId (ref : String) (imgs : List ImageRecord) :
    Except GoErr ImageRecord :=
  match imgs with
  | [] => .error (.notFound "list returned no images")
  | i0 :: rest =>
    if 1 < (i0 :: rest).length then
      match shortIdScan ref (i0 :: rest) [] with
      | (some r, _) => .ok r
      | (none, ds) =>
        if 1 < ds.dedup.length then
          .error (.notFound "ambiguous reference")
        else .ok i0
    else .ok i0

/-! ## Change computation (image_changes.go, Changes) -/

/-- World record for one Changes call: the outcome of each engine step.
A field of type Option GoErr is none when the step succeeds. -/
structure ChangesWorld where
  mountsRes : Except GoErr Unit
  getImageRes : Except GoErr Unit
  rootfsRes : Except GoErr (List String)
  uuidRes : Except GoErr String
  viewRes : Except GoErr Unit
  removeRes : Option GoErr
  tempMountRes : Option GoErr
  tempMountParentRes : Option GoErr
  diffRes : Except GoErr (List String)

/-- Observable outcome of a Changes call: either a Go runtime panic, or a
normal return of the (changes, err) pair. -/
inductive ChangesOutcome where
  | goPanic
  | ret (changes : Option (List String)) (err : Option GoErr)
deriving DecidableEq

/-- Error component of an Except result, as an Option. -/
def exErr {α : Type} : Except GoErr α → Option GoErr
  | .ok _ => none
  | .error e => some e

/-- Body of the two nested WithTempMount calls: a failed mount surfaces
its error; otherwise the directory diff result is assigned to the named
returns (changes, err). -/
def changesBody (w : ChangesWorld) : Option (List String) × Option GoErr :=
  match w.tempMountRes with
  | some e => (none, some e)
  | none =>
    match w.tempMountParentRes with
    | some e => (none, some e)
    | none =>
      match w.diffRes with
      | .ok cs => (some cs, none)
      | .error e => (none, some e)

/-- Translation of Changes (image_changes.go lines 15-56).
Source lines 17-20 read: mounts, uerr := snapshotter.Mounts(...); if
err != nil -- but err is the named return, still nil at that point, so
the guard is dead and a Mounts failure does not stop the call.
The deferred cleanup (lines 39-46) runs uerr = snapshotter.Remove(...)
and then, when the body error is non-nil, builds the combined error from
uerr.Error() unconditionally; when Remove succeeded uerr is nil and the
method call on the nil error value is a runtime panic. -/
def Changes (w : ChangesWorld) : ChangesOutcome :=
  let errNamed : Option GoErr := none
  let mountsUerr : Option GoErr := exErr w.mountsRes
  if errNamed.isSome then .ret none mountsUerr
  else
    match w.getImageRes with
    | .error e => .ret none (some e)
    | .ok _ =>
      match w.rootfsRes with
      | .error e => .ret none (some e)
      | .ok _ =>
        match w.uuidRes with
        | .error e => .ret none (some e)
        | .ok _ =>
          match w.viewRes with
          | .error e => .ret none (some e)
          | .ok _ =>
            let body := changesBody w
            match body.2 with
            | none => .ret body.1 w.removeRes
            | some e =>
              match w.removeRes with
              | some u => .ret body.1 (some (.combine u e))
              | none => .goPanic

/-! ## Platform normalization and matchers (vendored containerd
platforms package: database.go, comparison.go) -/

/-- Model of Go strings.ToLower restricted to ASCII (all identifiers the
platform tables compare are ASCII), written by structural recursion over
the character list. -/
def goToLower (s : String) : String :=
  ⟨s.data.map Char.toLower⟩

/-- Model of Go strconv.Atoi on non-negative decimal numerals: None on an
empty string or any non-digit character. -/
def goDecimalNat (s : String) : Option Nat :=
  if s.data.isEmpty then none
  else if s.data.all (fun c => c.isDigit) then
    some (s.data.foldl (fun a c => a * 10 + (c.toNat - 48)) 0)
  else none

/-- Model of Go strings.TrimPrefix with the literal prefix v. -/
def goTrimPrefixV (v : String) : String :=
  if ("v".data.isPrefixOf v.data) then ⟨v.data.drop 1⟩ else v

/-- Translation of normalizeOS. The Go function returns runtime.GOOS for
an empty string; the daemon host is modelled as linux. -/
def normalizeOS (os : String) : String :=
  if os = "" then "linux"
  else
    let os := goToLower os
    if os = "macos" then "darwin" else os

/-- Translation of normalizeArch: lowercases both fields and applies the
architecture alias table. -/
def normalizeArch (arch variant : String) : String × String :=
  let arch := goToLower arch
  let variant := goToLower variant
  if arch = "i386" then ("386", "")
  else if arch = "x86_64" || arch = "x86-64" || arch = "amd64" then
    ("amd64", if variant = "v1" then "" else variant)
  else if arch = "aarch64" || arch = "arm64" then
    ("arm64", if variant = "8" || variant = "v8" then "" else variant)
  else if arch = "arm" then
    ("arm",
      if variant = "" || variant = "7" then "v7"
      else if variant = "5" || variant = "6" || variant = "8" then "v" ++ variant
      else variant)
  else (arch, variant)

/-- Translation of platforms.Normalize restricted to the three fields the
matcher compares. -/
def normalizePlatform (p : Platform) : Platform :=
  let av := normalizeArch p.architecture p.variant
  ⟨normalizeOS p.os, av.1, av.2⟩

/-- Translation of matcher.Match: the held (already normalized) platform
equals the normalization of the probed platform on os, architecture and
variant. -/
def matcherMatch (m q : Platform) : Bool :=
  m == normalizePlatform q

/-- Go strconv.Atoi applied to the variant with a leading v trimmed, as
in platformVector; None when the remainder is not a decimal numeral. -/
def variantNum (v : String) : Option Nat :=
  goDecimalNat (goTrimPrefixV v)

/-- Descending arm variant platforms v(n-1) down to v5, as produced by
the arm branch of platformVector when the variant parses to n gt 5. -/
def armDescending (os : String) (n : Nat) : List Platform :=
  (List.range (n - 5)).map (fun k => ⟨os, "arm", "v" ++ toString (n - 1 - k)⟩)

/-- Translation of platformVector (comparison.go): the compatibility
vector for a normalized platform. The arm64 branch inlines its single
recursive call on the corresponding arm platform. -/
def platformVector (p : Platform) : List Platform :=
  if p.architecture = "amd64" then
    [p] ++
      (match variantNum p.variant with
        | some n =>
          if 1 < n then
            (List.range (n - 1)).map
              (fun k => ⟨p.os, "amd64", "v" ++ toString (n - 1 - k)⟩)
          else []
        | none => []) ++
      [⟨p.os, "386", ""⟩]
  else if p.architecture = "arm" then
    [p] ++
      (match variantNum p.variant with
        | some n => if 5 < n then armDescending p.os n else []
        | none => [])
  else if p.architecture = "arm64" then
    let v := if p.variant = "" then "v8" else p.variant
    [p] ++
      ([⟨p.os, "arm", v⟩] ++
        (match variantNum v with
          | some n => if 5 < n then armDescending p.os n else []
          | none => []))
  else [p]

/-- Translation of platforms.Only(c).Match(q): an Ordered matcher over
the compatibility vector of the normalized constraint; each member is
normalized again when its matcher is built. -/
def onlyMatch (c q : Platform) : Bool :=
  (platformVector (normalizePlatform c)).any
    (fun m => matcherMatch (normalizePlatform m) q)

/-- Translation of platforms.OnlyStrict(c).Match(q): a single matcher on
the normalized constraint. -/
def onlyStrictMatch (c q : Platform) : Bool :=
  matcherMatch (normalizePlatform c) q

/-- Translation of platforms.Format: unknown for an empty os, otherwise
the non-empty fields joined with slashes. -/
def formatPlatform (p : Platform) : String :=
  if p.os = "" then "unknown"
  else String.intercalate "/"
    (([p.os, p.architecture, p.variant]).filter (fun s => !(s == "")))

/-- Platform-filter tail of resolveImage (image.go lines 200-214): with a
constraint present, the record is accepted iff some reachable platform
matches under the platforms.Only comparer, else NotFound. -/
def resolvePlatformFilter (constraint : Option Platform)
    (img : ImageRecord) (imgPlatforms : List Platform) :
    Except GoErr ImageRecord :=
  match constraint with
  | none => .ok img
  | some p =>
    if imgPlatforms.any (fun q => onlyMatch p q) then .ok img
    else .error (.notFound ("platform " ++ formatPlatform p ++ " not supported"))

/-! ## Export planning (image_exporter.go, optForImageExport) -/

/-- Result of ContentStore.ReaderAt on a blob: success, a not-found
error, or any other error. -/
inductive ReadRes where
  | ok
  | notFound
  | failed (e : GoErr)
deriving DecidableEq

/-- One export instruction: archive.WithImage on a stored name, or
archive.WithManifest on a target descriptor with an archive entry name. -/
inductive ExportInstr where
  | byName (imageName : String)
  | byManifest (target : Descriptor) (entryName : String)
deriving DecidableEq

/-- A temporary image produced by converter.Convert: its store name, its
target descriptor, and the platform filter passed to the converter (the
derived index keeps exactly the manifests of these platforms). -/
structure TmpImage where
  name : String
  target : Descriptor
  platformFilter : List Platform
deriving DecidableEq

/-- Outcome of the presence-probe loop over the index children. -/
inductive ProbeRes where
  | goPanic
  | failed (e : GoErr)
  | done (missing present : List Platform)
deriving DecidableEq

/-- Presence-probe loop (image_exporter.go lines 133-147): for each
manifest-typed child, a not-found ReaderAt moves the dereferenced child
platform to missing, a hard error returns, success moves the
dereferenced child platform to present. Dereferencing a nil platform is
a Go runtime panic. -/
def probeLoop (ra : String → ReadRes) :
    List Descriptor → List Platform → List Platform → ProbeRes
  | [], ms, ps => .done ms ps
  | c :: rest, ms, ps =>
    if isManifestType c.mediaType then
      match ra c.digest with
      | .notFound =>
        match c.platform with
        | none => .goPanic
        | some p => probeLoop ra rest (ms ++ [p]) ps
      | .failed e => .failed e
      | .ok =>
        match c.platform with
        | none => .goPanic
        | some p => probeLoop ra rest ms (ps ++ [p])
    else probeLoop ra rest ms ps

/-- World record for one optForImageExport call. -/
structure OptWorld where
  resolveRes : Except GoErr ImageRecord
  parseRes : Except GoErr String
  childrenRes : Except GoErr (List Descriptor)
  readerAt : String → ReadRes
  convertRes : Except GoErr Descriptor
  uuid : String

/-- Observable outcome of optForImageExport: a Go runtime panic, or the
triple (instruction, temporary image, error). -/
inductive OptOutcome where
  | goPanic
  | ret (instr : Option ExportInstr) (tmp : Option TmpImage) (err : Option GoErr)
deriving DecidableEq

/-- Translation of optForImageExport (image_exporter.go lines 112-166). -/
def optForImageExport (w : OptWorld) : OptOutcome :=
  match w.resolveRes with
  | .error e => .ret none none (some (.wrapMsg "failed to resolve image" e))
  | .ok img =>
    match w.parseRes with
    | .error e => .ret none none (some (.wrapMsg "failed to parse image reference" e))
    | .ok ref =>
      if isIndexType img.target.mediaType then
        match w.childrenRes with
        | .error e => .ret none none (some e)
        | .ok children =>
          match probeLoop w.readerAt children [] [] with
          | .goPanic => .goPanic
          | .failed e => .ret none none (some e)
          | .done missing present =>
            if missing.isEmpty then .ret (some (.byName img.name)) none none
            else
              let srcRef := ref
              let targetRef := srcRef ++ "-tmp-export" ++ w.uuid
              match w.convertRes with
              | .error e => .ret none none (some e)
              | .ok tgt =>
                .ret (some (.byManifest tgt srcRef))
                  (some ⟨targetRef, tgt, present⟩) none
      else .ret (some (.byName img.name)) none none

/-! ## Export driver (image_exporter.go, ExportImage) -/

/-- Per-reference step result of optForImageExport as seen by the
ExportImage loop: an optional instruction, an optional created temporary
image name, an optional error. -/
structure ExpStep where
  newOpt : Option ExportInstr
  tmp : Option String
  err : Option GoErr

/-- World record for one ExportImage call. -/
structure ExpWorld where
  steps : List ExpStep
  exportErr : Option GoErr

/-- Observable events of an ExportImage call, in order. -/
inductive ExpEvent where
  | create (name : String)
  | archiveWrite
  | delete (name : String) (synchronous : Bool)
deriving DecidableEq

/-- Temporary image names created by the loop, in creation order: every
step up to and including the first failing step contributes its tmp. -/
def expCreated : List ExpStep → List String
  | [] => []
  | s :: rest =>
    (s.tmp.toList) ++ (match s.err with | some _ => [] | none => expCreated rest)

/-- First error produced by the loop, if any. -/
def expLoopErr : List ExpStep → Option GoErr
  | [] => none
  | s :: rest => match s.err with | some e => some e | none => expLoopErr rest

/-- Reference loop of ExportImage (image_exporter.go lines 57-68): a
created temporary image is appended to the store and its synchronous
delete is pushed on the defer stack at that moment; a step error stops
the loop. Returns the defer stack, the store, the event list and the
loop error. -/
def exportLoop :
    List ExpStep → List String → List ExpEvent → List String →
      List String × List String × List ExpEvent × Option GoErr
  | [], deferStack, evs, store => (deferStack, store, evs, none)
  | s :: rest, deferStack, evs, store =>
    let acc :=
      match s.tmp with
      | some n => (n :: deferStack, store ++ [n], evs ++ [ExpEvent.create n])
      | none => (deferStack, store, evs)
    match s.err with
    | some e => (acc.1, acc.2.1, acc.2.2, some e)
    | none => exportLoop rest acc.1 acc.2.2 acc.2.1

/-- Deferred deletes running on function exit: last registered first;
each removes its name from the store. -/
def runDefers :
    List String → List String → List ExpEvent → List String × List ExpEvent
  | [], store, evs => (store, evs)
  | n :: rest, store, evs =>
    runDefers rest (store.filter (fun m => !(m == n)))
      (evs ++ [ExpEvent.delete n true])

/-- Translation of the ExportImage control flow (image_exporter.go lines
39-71): run the per-reference loop, then (when no step failed) write the
archive, then run the deferred deletes in reverse registration order. -/
def exportImage (w : ExpWorld) (store : List String) :
    List String × List ExpEvent × Option GoErr :=
  let r := exportLoop w.steps [] [] store
  let afterBody : List ExpEvent × Option GoErr :=
    match r.2.2.2 with
    | some e => (r.2.2.1, some e)
    | none => (r.2.2.1 ++ [ExpEvent.archiveWrite], w.exportErr)
  let final := runDefers r.1 r.2.1 afterBody.1
  (final.1, final.2, afterBody.2)

/-! ## Import driver (image_exporter.go, LoadImage) -/

/-- One image returned by the engine Import together with the outcomes
of its unpack check and unpack attempt. -/
structure LoadImg where
  name : String
  isUnpackedRes : Except GoErr Bool
  unpackErr : Option GoErr

/-- World record for one LoadImage call. -/
structure LoadWorld where
  importRes : Except GoErr (List LoadImg)

/-- Observable events of a LoadImage call. -/
inductive LoadEvent where
  | checkFailed (name : String)
  | alreadyUnpacked (name : String)
  | unpackAttempt (name : String) (failedAttempt : Bool)
deriving DecidableEq

/-- Per-image loop of LoadImage (image_exporter.go lines 88-106): a
failed unpack check skips the image and continues; an image not yet
unpacked is unpacked, and an unpack failure returns immediately with the
wrapped error. -/
def loadLoop : List LoadImg → List LoadEvent × Option GoErr
  | [] => ([], none)
  | img :: rest =>
    match img.isUnpackedRes with
    | .error _ =>
      let r := loadLoop rest
      (.checkFailed img.name :: r.1, r.2)
    | .ok true =>
      let r := loadLoop rest
      (.alreadyUnpacked img.name :: r.1, r.2)
    | .ok false =>
      match img.unpackErr with
      | some e =>
        ([.unpackAttempt img.name true], some (.wrapMsg "failed to unpack image" e))
      | none =>
        let r := loadLoop rest
        (.unpackAttempt img.name false :: r.1, r.2)

/-- Translation of LoadImage (image_exporter.go lines 78-108). -/
def loadImage (w : LoadWorld) : List LoadEvent × Option GoErr :=
  match w.importRes with
  | .error e => ([], some (.wrapMsg "failed to import image" e))
  | .ok imgs => loadLoop imgs

/-! ## Theorems -/

/-- Conformance of the modelled isRootfsChildOf with the table of
TestIsRootfsChildOf from the repository test file (child argument first,
as in the test call isRootfsChildOf(tc.child, tc.parent)). -/
theorem isRootfsChildOf_repo_test_table :
    isRootfsChildOf (toRootfs "ABC") (toRootfs "AB") = true ∧
    isRootfsChildOf (toRootfs "XYZAB") (toRootfs "XYZ") = true ∧
    isRootfsChildOf (toRootfs "XYZ") (toRootfs "XYZ") = false ∧
    isRootfsChildOf (toRootfs "ABD") (toRootfs "ABC") = false ∧
    isRootfsChildOf (toRootfs "XYZ") (toRootfs "ABC") = false ∧
    isRootfsChildOf (toRootfs "AB") (toRootfs "ABC") = false ∧
    isRootfsChildOf (toRootfs "XYZAB") (toRootfs "AB") = false := by
  decide

/-- C9: isRootfsChildOf(child, parent) is true iff the parent diff-ID
list is a strict prefix of the child diff-ID list; it is irreflexive,
and a true result forces the parent list to be shorter and equal to the
corresponding leading segment of the child list. -/
theorem isRootfsChildOf_strict_ancestry :
    (∀ child parent : RootFS, isRootfsChildOf child parent = true ↔
        (parent.diffIDs <+: child.diffIDs ∧
          parent.diffIDs.length < child.diffIDs.length)) ∧
    (∀ a : RootFS, isRootfsChildOf a a = false) ∧
    (∀ child parent : RootFS, isRootfsChildOf child parent = true →
        parent.diffIDs.length < child.diffIDs.length ∧
        child.diffIDs.take parent.diffIDs.length = parent.diffIDs) := by
  have hiff : ∀ child parent : RootFS, isRootfsChildOf child parent = true ↔
      (parent.diffIDs <+: child.diffIDs ∧
        parent.diffIDs.length < child.diffIDs.length) := by
    intro c p
    simp [isRootfsChildOf, List.isPrefixOf_iff_prefix]
  refine ⟨hiff, ?_, ?_⟩
  · intro a
    cases h : isRootfsChildOf a a with
    | false => rfl
    | true =>
      have := ((hiff a a).1 h).2
      omega
  · intro c p h
    obtain ⟨hpre, hlt⟩ := (hiff c p).1 h
    refine ⟨hlt, ?_⟩
    obtain ⟨t, ht⟩ := hpre
    rw [← ht]
    simp

/-- Witness for C9 at the concrete rootfs pair from the repository test
(parent AB, child ABC). -/
theorem isRootfsChildOf_strict_ancestry_witness :
    isRootfsChildOf (toRootfs "ABC") (toRootfs "AB") = true ∧
    (toRootfs "AB").diffIDs.length < (toRootfs "ABC").diffIDs.length ∧
    (toRootfs "ABC").diffIDs.take (toRootfs "AB").diffIDs.length =
      (toRootfs "AB").diffIDs :=
  have h : isRootfsChildOf (toRootfs "ABC") (toRootfs "AB") = true := by decide
  ⟨h, (isRootfsChildOf_strict_ancestry.2.2 (toRootfs "ABC") (toRootfs "AB") h).1,
    (isRootfsChildOf_strict_ancestry.2.2 (toRootfs "ABC") (toRootfs "AB") h).2⟩

/-- C1: at the failing input where the directory diff errors and the
deferred view removal succeeds, Changes hits the nil-error method call
in the deferred function and panics instead of returning an error that
wraps the diff error; when the removal also fails, the returned error
does combine the removal error around the diff error as specified. -/
theorem changes_diff_error_remove_ok_panics :
    Changes ⟨.ok (), .ok (), .ok ["layer0"], .ok "rnd", .ok (), none,
        none, none, .error (.base "diff failed")⟩ = .goPanic ∧
    Changes ⟨.ok (), .ok (), .ok ["layer0"], .ok "rnd", .ok (),
        some (.base "remove failed"), none, none,
        .error (.base "diff failed")⟩ =
      .ret none (some (.combine (.base "remove failed") (.base "diff failed"))) :=
  ⟨rfl, rfl⟩

/-- C2: at the failing input where acquiring the mount set errors while
every later step succeeds, Changes ignores the Mounts error (the guard
reads the still-nil named return err), performs all further steps and
returns success instead of the Mounts error. -/
theorem changes_mounts_error_not_fatal :
    Changes ⟨.error (.base "mounts failed"), .ok (), .ok ["layer0"],
        .ok "rnd", .ok (), none, none, none, .ok ["C /etc/hosts"]⟩ =
      .ret (some ["C /etc/hosts"]) none :=
  rfl

/-- Concrete index-typed image record used in platform-filter inputs. -/
def armIndexRecord : ImageRecord :=
  ⟨"img:latest", ⟨"application/vnd.oci.image.index.v1+json", "sha256:0011", none⟩⟩

/-- C4: at the failing input with constraint linux/arm/v7 and reachable
image platform linux/arm/v6, the resolver accepts the record via the
non-strict platforms.Only comparer although no reachable platform
matches the constraint under strict comparison, so acceptance is not
equivalent to strict matching. -/
theorem resolvePlatformFilter_not_strict :
    resolvePlatformFilter (some ⟨"linux", "arm", "v7"⟩) armIndexRecord
        [⟨"linux", "arm", "v6"⟩] = .ok armIndexRecord ∧
    onlyStrictMatch ⟨"linux", "arm", "v7"⟩ ⟨"linux", "arm", "v6"⟩ = false :=
  ⟨rfl, by decide⟩

/-- A record list with no exact-name match is scanned to the end and
yields the accumulated digest list. -/
theorem shortIdScan_no_exact (ref : String) :
    ∀ (l : List ImageRecord) (ds : List String),
      (∀ r ∈ l, r.name ≠ ref) →
      shortIdScan ref l ds = (none, ds ++ l.map (fun r => r.target.digest)) := by
  intro l
  induction l with
  | nil => intro ds _; simp [shortIdScan]
  | cons r rs ih =>
    intro ds h
    have hr : ¬(r.name = ref) := h r (by simp)
    have hrest : ∀ x ∈ rs, x.name ≠ ref := fun x hx => h x (by simp [hx])
    simp only [shortIdScan, if_neg hr]
    rw [ih (ds ++ [r.target.digest]) hrest]
    simp

/-- A scan of a list containing an exact-name match returns the first
such record. -/
theorem shortIdScan_exact (ref : String) :
    ∀ (l : List ImageRecord) (ds : List String),
      (∃ r ∈ l, r.name = ref) →
      ∃ x, x ∈ l ∧ x.name = ref ∧
        ∃ ds2, shortIdScan ref l ds = (some x, ds2) := by
  intro l
  induction l with
  | nil => intro ds h; simp at h
  | cons r rs ih =>
    intro ds h
    by_cases hr : r.name = ref
    · exact ⟨r, by simp, hr, ds, by simp [shortIdScan, hr]⟩
    · have hrest : ∃ x ∈ rs, x.name = ref := by
        obtain ⟨x, hx, hxn⟩ := h
        rcases List.mem_cons.1 hx with heq | hmem
        · exact absurd (heq ▸ hxn) hr
        · exact ⟨x, hmem, hxn⟩
      obtain ⟨x, hxmem, hxn, ds2, hscan⟩ := ih (ds ++ [r.target.digest]) hrest
      exact ⟨x, by simp [hxmem], hxn, ds2, by simp [shortIdScan, hr, hscan]⟩

/-- C3: short-ID resolution when the store List call returns two or more
matching records: a record whose name equals the candidate named form is
returned; otherwise a single distinct target digest yields some matching
record, and multiple distinct digests yield the ambiguous NotFound. -/
theorem resolveShortId_multi (ref : String) (imgs : List ImageRecord)
    (h2 : 2 ≤ imgs.length) :
    ((∃ r ∈ imgs, r.name = ref) →
        ∃ r ∈ imgs, r.name = ref ∧ resolveShortId ref imgs = .ok r) ∧
    ((∀ r ∈ imgs, r.name ≠ ref) →
        (imgs.map (fun r => r.target.digest)).dedup.length = 1 →
        ∃ r ∈ imgs, resolveShortId ref imgs = .ok r) ∧
    ((∀ r ∈ imgs, r.name ≠ ref) →
        1 < (imgs.map (fun r => r.target.digest)).dedup.length →
        resolveShortId ref imgs = .error (.notFound "ambiguous reference")) := by
  match imgs, h2 with
  | i0 :: i1 :: rest, _ =>
    have hlen : 1 < (i0 :: i1 :: rest).length := by
      simp only [List.length_cons]
      omega
    refine ⟨?_, ?_, ?_⟩
    · intro hex
      obtain ⟨x, hxmem, hxn, ds2, hscan⟩ :=
        shortIdScan_exact ref (i0 :: i1 :: rest) [] hex
      refine ⟨x, hxmem, hxn, ?_⟩
      simp only [resolveShortId, if_pos hlen, hscan]
    · intro hnone hone
      have hscan := shortIdScan_no_exact ref (i0 :: i1 :: rest) [] hnone
      refine ⟨i0, by simp, ?_⟩
      simp only [resolveShortId, if_pos hlen, hscan, List.nil_append]
      rw [if_neg (by omega)]
    · intro hnone hmany
      have hscan := shortIdScan_no_exact ref (i0 :: i1 :: rest) [] hnone
      simp only [resolveShortId, if_pos hlen, hscan, List.nil_append]
      rw [if_pos hmany]

/-- Concrete store records realizing spec scenario S1: a record whose
name is the short-form expansion and a second record whose target digest
shares the short prefix. -/
def recOther : ImageRecord :=
  ⟨"other:latest",
    ⟨"application/vnd.oci.image.manifest.v1+json", "sha256:abc12399", none⟩⟩

/-- Record named by the short-form expansion of the short ID abc123. -/
def recNamed : ImageRecord :=
  ⟨"abc123:latest",
    ⟨"application/vnd.oci.image.manifest.v1+json", "sha256:abc12300", none⟩⟩

/-- Witness for C3 at scenario S1: among two matches with distinct
digests, the record named abc123:latest wins. -/
theorem resolveShortId_multi_witness :
    ∃ r ∈ [recOther, recNamed], r.name = "abc123:latest" ∧
      resolveShortId "abc123:latest" [recOther, recNamed] = .ok r :=
  (resolveShortId_multi "abc123:latest" [recOther, recNamed] (by decide)).1
    ⟨recNamed, by decide, by decide⟩

/-- Platforms of the manifest-typed children whose blob probe reports
not-found, in child order. -/
def missingOf (ra : String → ReadRes) (l : List Descriptor) : List Platform :=
  l.filterMap (fun c =>
    if isManifestType c.mediaType = true ∧ ra c.digest = ReadRes.notFound then
      c.platform
    else none)

/-- Platforms of the manifest-typed children whose blob probe succeeds,
in child order. -/
def presentOf (ra : String → ReadRes) (l : List Descriptor) : List Platform :=
  l.filterMap (fun c =>
    if isManifestType c.mediaType = true ∧ ra c.digest = ReadRes.ok then
      c.platform
    else none)

/-- Run of the presence-probe loop when no probe hard-errors and every
manifest-typed child carries a platform: classification into the
missing and present platform lists. -/
theorem probeLoop_done (ra : String → ReadRes) :
    ∀ (l : List Descriptor) (ms ps : List Platform),
      (∀ c ∈ l, isManifestType c.mediaType = true →
          (∀ e, ra c.digest ≠ .failed e) ∧ c.platform ≠ none) →
      probeLoop ra l ms ps = .done (ms ++ missingOf ra l) (ps ++ presentOf ra l) := by
  intro l
  induction l with
  | nil => intro ms ps _; simp [probeLoop, missingOf, presentOf]
  | cons c rest ih =>
    intro ms ps h
    have hrest := fun x hx => h x (List.mem_cons_of_mem c hx)
    by_cases hm : isManifestType c.mediaType = true
    · obtain ⟨hnf, hplat⟩ := h c (by simp) hm
      cases hp : c.platform with
      | none => exact absurd hp hplat
      | some p =>
        cases hra : ra c.digest with
        | ok =>
          simp only [probeLoop, hm, if_true, hra, hp]
          rw [ih _ _ hrest]
          simp [missingOf, presentOf, List.filterMap_cons, hm, hra, hp]
        | notFound =>
          simp only [probeLoop, hm, if_true, hra, hp]
          rw [ih _ _ hrest]
          simp [missingOf, presentOf, List.filterMap_cons, hm, hra, hp]
        | failed e => exact absurd hra (hnf e)
    · simp only [probeLoop, hm, if_false]
      rw [ih _ _ hrest]
      simp [missingOf, presentOf, List.filterMap_cons, hm]

/-- Run of the presence-probe loop when no probe hard-errors and some
manifest-typed child carries no platform: the nil dereference panics. -/
theorem probeLoop_goPanic (ra : String → ReadRes) :
    ∀ (l : List Descriptor) (ms ps : List Platform),
      (∀ c ∈ l, isManifestType c.mediaType = true →
          ∀ e, ra c.digest ≠ .failed e) →
      (∃ c ∈ l, isManifestType c.mediaType = true ∧ c.platform = none) →
      probeLoop ra l ms ps = .goPanic := by
  intro l
  induction l with
  | nil => intro ms ps _ hex; simp at hex
  | cons c rest ih =>
    intro ms ps h hex
    have hrest := fun x hx => h x (List.mem_cons_of_mem c hx)
    by_cases hm : isManifestType c.mediaType = true
    · cases hp : c.platform with
      | none =>
        cases hra : ra c.digest with
        | ok => simp [probeLoop, hm, hra, hp]
        | notFound => simp [probeLoop, hm, hra, hp]
        | failed e => exact absurd hra (h c (by simp) hm e)
      | some p =>
        have hexrest : ∃ x ∈ rest, isManifestType x.mediaType = true ∧ x.platform = none := by
          obtain ⟨x, hx, hxm, hxp⟩ := hex
          rcases List.mem_cons.1 hx with heq | hmem
          · rw [heq] at hxp; rw [hxp] at hp; exact absurd hp (by simp)
          · exact ⟨x, hmem, hxm, hxp⟩
        cases hra : ra c.digest with
        | ok =>
          simp only [probeLoop, hm, if_true, hra, hp]
          exact ih _ _ hrest hexrest
        | notFound =>
          simp only [probeLoop, hm, if_true, hra, hp]
          exact ih _ _ hrest hexrest
        | failed e => exact absurd hra (h c (by simp) hm e)
    · have hexrest : ∃ x ∈ rest, isManifestType x.mediaType = true ∧ x.platform = none := by
        obtain ⟨x, hx, hxm, hxp⟩ := hex
        rcases List.mem_cons.1 hx with heq | hmem
        · rw [heq] at hxm; exact absurd hxm hm
        · exact ⟨x, hmem, hxm, hxp⟩
      simp only [probeLoop, hm, if_false]
      exact ih _ _ hrest hexrest

/-- Manifest children that probe as present contribute no missing
platform. -/
theorem missingOf_eq_nil (ra : String → ReadRes) (l : List Descriptor)
    (h : ∀ c ∈ l, isManifestType c.mediaType = true → ra c.digest = .ok) :
    missingOf ra l = [] := by
  rw [missingOf, List.filterMap_eq_nil_iff]
  intro c hc
  by_cases hm : isManifestType c.mediaType = true
  · have := h c hc hm
    simp [hm, this]
  · simp [hm]

/-- C10: with an index target, when no blob probe hard-errors, the
presence loop panics on a nil platform dereference exactly when some
manifest-typed child carries no platform; when every manifest-typed
child carries one, the call cannot panic. -/
theorem optForImageExport_requires_platform (w : OptWorld)
    (img : ImageRecord) (ref : String) (children : List Descriptor)
    (hres : w.resolveRes = .ok img) (hparse : w.parseRes = .ok ref)
    (hidx : isIndexType img.target.mediaType = true)
    (hch : w.childrenRes = .ok children)
    (hnf : ∀ c ∈ children, isManifestType c.mediaType = true →
        ∀ e, w.readerAt c.digest ≠ .failed e) :
    ((∃ c ∈ children, isManifestType c.mediaType = true ∧ c.platform = none) →
        optForImageExport w = .goPanic) ∧
    ((∀ c ∈ children, isManifestType c.mediaType = true → c.platform ≠ none) →
        optForImageExport w ≠ .goPanic) := by
  constructor
  · intro hex
    simp only [optForImageExport, hres, hparse, hidx, if_true, hch]
    rw [probeLoop_goPanic w.readerAt children [] [] hnf hex]
  · intro hall
    simp only [optForImageExport, hres, hparse, hidx, if_true, hch]
    rw [probeLoop_done w.readerAt children [] []
        (fun c hc hm => ⟨hnf c hc hm, hall c hc hm⟩)]
    by_cases hmiss : missingOf w.readerAt children = []
    · simp [hmiss]
    · cases hconv : w.convertRes with
      | error e => simp [hmiss, hconv]
      | ok tgt => simp [hmiss, hconv]

/-- C5: with resolution and name parsing succeeded, a non-index target
is exported by name with no temporary image, and an index target all of
whose manifest-typed children are present (and carry platforms) is also
exported by name with no temporary image. -/
theorem optForImageExport_all_present (w : OptWorld)
    (img : ImageRecord) (ref : String) (children : List Descriptor)
    (hres : w.resolveRes = .ok img) (hparse : w.parseRes = .ok ref) :
    (isIndexType img.target.mediaType = false →
        optForImageExport w = .ret (some (.byName img.name)) none none) ∧
    (isIndexType img.target.mediaType = true →
        w.childrenRes = .ok children →
        (∀ c ∈ children, isManifestType c.mediaType = true →
            w.readerAt c.digest = .ok ∧ c.platform ≠ none) →
        optForImageExport w = .ret (some (.byName img.name)) none none) := by
  constructor
  · intro hnidx
    simp [optForImageExport, hres, hparse, hnidx]
  · intro hidx hch hall
    simp only [optForImageExport, hres, hparse, hidx, if_true, hch]
    rw [probeLoop_done w.readerAt children [] []
        (fun c hc hm =>
          ⟨fun e h => by
              have := (hall c hc hm).1
              rw [this] at h
              exact ReadRes.noConfusion h,
            (hall c hc hm).2⟩)]
    rw [missingOf_eq_nil w.readerAt children (fun c hc hm => (hall c hc hm).1)]
    simp

/-- C6: with an index target missing at least one manifest blob (every
manifest child carrying a platform, no probe hard error, conversion
succeeding), a temporary image is created whose name is the source
reference string with the tmp-export suffix and whose platform filter is
exactly the present platforms, and the emitted instruction is
export-by-manifest carrying the original reference string. -/
theorem optForImageExport_partial_index (w : OptWorld)
    (img : ImageRecord) (ref : String) (children : List Descriptor)
    (tgt : Descriptor)
    (hres : w.resolveRes = .ok img) (hparse : w.parseRes = .ok ref)
    (hidx : isIndexType img.target.mediaType = true)
    (hch : w.childrenRes = .ok children)
    (hok : ∀ c ∈ children, isManifestType c.mediaType = true →
        (∀ e, w.readerAt c.digest ≠ .failed e) ∧ c.platform ≠ none)
    (hmiss : ∃ c ∈ children, isManifestType c.mediaType = true ∧
        w.readerAt c.digest = .notFound)
    (hconv : w.convertRes = .ok tgt) :
    optForImageExport w =
      .ret (some (.byManifest tgt ref))
        (some ⟨ref ++ "-tmp-export" ++ w.uuid, tgt, presentOf w.readerAt children⟩)
        none := by
  simp only [optForImageExport, hres, hparse, hidx, if_true, hch]
  rw [probeLoop_done w.readerAt children [] [] hok]
  have hne : missingOf w.readerAt children ≠ [] := by
    obtain ⟨c, hc, hm, hra⟩ := hmiss
    obtain ⟨hnf, hplat⟩ := hok c hc hm
    cases hp : c.platform with
    | none => exact absurd hp hplat
    | some p =>
      intro hnil
      have hmem : p ∈ missingOf w.readerAt children := by
        rw [missingOf]
        exact List.mem_filterMap.2 ⟨c, hc, by simp [hm, hra, hp]⟩
      rw [hnil] at hmem
      simp at hmem
  have hemp : (missingOf w.readerAt children).isEmpty = false := by
    cases hval : (missingOf w.readerAt children).isEmpty with
    | false => rfl
    | true => exact absurd (List.isEmpty_iff.1 hval) hne
  simp [hemp, hconv]

/-- Concrete present manifest child for linux/amd64. -/
def descAmd : Descriptor :=
  ⟨"application/vnd.oci.image.manifest.v1+json", "sha256:m1",
    some ⟨"linux", "amd64", ""⟩⟩

/-- Concrete manifest child for linux/arm64 whose blob will be absent in
the partial-export world. -/
def descArm : Descriptor :=
  ⟨"application/vnd.oci.image.manifest.v1+json", "sha256:m2",
    some ⟨"linux", "arm64", ""⟩⟩

/-- Concrete manifest child carrying no platform descriptor. -/
def descNoPlatform : Descriptor :=
  ⟨"application/vnd.oci.image.manifest.v1+json", "sha256:m3", none⟩

/-- Concrete target descriptor produced by the converter. -/
def convTarget : Descriptor :=
  ⟨"application/vnd.oci.image.index.v1+json", "sha256:conv", none⟩

/-- Export-planning world with both manifest blobs present. -/
def optWorldAllPresent : OptWorld :=
  ⟨.ok armIndexRecord, .ok "img:latest", .ok [descAmd, descArm],
    fun _ => .ok, .ok convTarget, "uuid1"⟩

/-- Export-planning world with the arm64 manifest blob absent. -/
def optWorldPartial : OptWorld :=
  ⟨.ok armIndexRecord, .ok "img:latest", .ok [descAmd, descArm],
    fun d => if d == "sha256:m2" then .notFound else .ok,
    .ok convTarget, "uuid1"⟩

/-- Export-planning world whose single manifest child has no platform. -/
def optWorldNoPlatform : OptWorld :=
  ⟨.ok armIndexRecord, .ok "img:latest", .ok [descNoPlatform],
    fun _ => .ok, .ok convTarget, "uuid1"⟩

/-- Witness for C5: full index is exported by name without a temporary
image. -/
theorem optForImageExport_all_present_witness :
    optForImageExport optWorldAllPresent =
      .ret (some (.byName "img:latest")) none none :=
  (optForImageExport_all_present optWorldAllPresent armIndexRecord
      "img:latest" [descAmd, descArm] rfl rfl).2 (by decide) rfl (by decide)

/-- Witness for C6: the partial index yields a temporary image named
img:latest-tmp-exportuuid1 filtered to linux/amd64, and the instruction
keeps the original name img:latest. -/
theorem optForImageExport_partial_index_witness :
    optForImageExport optWorldPartial =
      .ret (some (.byManifest convTarget "img:latest"))
        (some ⟨"img:latest-tmp-exportuuid1", convTarget,
          [⟨"linux", "amd64", ""⟩]⟩) none := by
  have hok : ∀ c ∈ [descAmd, descArm], isManifestType c.mediaType = true →
      (∀ e, optWorldPartial.readerAt c.digest ≠ ReadRes.failed e) ∧
        c.platform ≠ none := by
    intro c hc hm
    refine ⟨fun e h => ?_, ?_⟩
    · simp only [optWorldPartial] at h
      split at h <;> exact ReadRes.noConfusion h
    · fin_cases hc <;> simp [descAmd, descArm]
  have h := optForImageExport_partial_index optWorldPartial armIndexRecord
    "img:latest" [descAmd, descArm] convTarget rfl rfl (by decide) rfl
    hok ⟨descArm, by decide, by decide, by decide⟩ rfl
  rw [h]
  rfl

/-- Witness for C10: a present manifest child without a platform drives
the call into the nil-dereference panic. -/
theorem optForImageExport_requires_platform_witness :
    optForImageExport optWorldNoPlatform = .goPanic :=
  (optForImageExport_requires_platform optWorldNoPlatform armIndexRecord
      "img:latest" [descNoPlatform] rfl rfl (by decide) rfl
      (by intro c hc hm e h; exact ReadRes.noConfusion h)).1
    ⟨descNoPlatform, by decide, by decide, rfl⟩

/-- Characterization of the ExportImage reference loop: the defer stack
holds the created names in reverse creation order, the store gains the
created names, the events are the creations in order, and the loop error
is the first step error. -/
theorem exportLoop_spec :
    ∀ (steps : List ExpStep) (stack : List String) (evs : List ExpEvent)
      (store : List String),
      exportLoop steps stack evs store =
        ((expCreated steps).reverse ++ stack,
          store ++ expCreated steps,
          evs ++ (expCreated steps).map ExpEvent.create,
          expLoopErr steps) := by
  intro steps
  induction steps with
  | nil => intro stack evs store; simp [exportLoop, expCreated, expLoopErr]
  | cons s rest ih =>
    intro stack evs store
    cases ht : s.tmp with
    | none =>
      cases he : s.err with
      | some e => simp [exportLoop, expCreated, expLoopErr, ht, he]
      | none =>
        simp only [exportLoop, ht, he]
        rw [ih]
        simp [expCreated, expLoopErr, ht, he]
    | some n =>
      cases he : s.err with
      | some e => simp [exportLoop, expCreated, expLoopErr, ht, he]
      | none =>
        simp only [exportLoop, ht, he]
        rw [ih]
        simp [expCreated, expLoopErr, ht, he]

/-- Deferred deletes append one synchronous delete event per stack entry
in stack order. -/
theorem runDefers_events :
    ∀ (stack store : List String) (evs : List ExpEvent),
      (runDefers stack store evs).2 =
        evs ++ stack.map (fun n => ExpEvent.delete n true) := by
  intro stack
  induction stack with
  | nil => intro store evs; simp [runDefers]
  | cons n rest ih =>
    intro store evs
    rw [runDefers, ih]
    simp

/-- The store left by the deferred deletes only shrinks. -/
theorem runDefers_store_subset :
    ∀ (stack store : List String) (evs : List ExpEvent) (x : String),
      x ∈ (runDefers stack store evs).1 → x ∈ store := by
  intro stack
  induction stack with
  | nil => intro store evs x h; simpa [runDefers] using h
  | cons n rest ih =>
    intro store evs x h
    rw [runDefers] at h
    exact List.mem_of_mem_filter (ih _ _ x h)

/-- Every name on the defer stack is gone from the store the deferred
deletes leave behind. -/
theorem runDefers_store_not_mem :
    ∀ (stack store : List String) (evs : List ExpEvent) (n : String),
      n ∈ stack → n ∉ (runDefers stack store evs).1 := by
  intro stack
  induction stack with
  | nil => intro store evs n h; simp at h
  | cons m rest ih =>
    intro store evs n h hin
    rcases List.mem_cons.1 h with heq | hmem
    · subst heq
      have hfil := runDefers_store_subset rest _ _ n hin
      have := List.of_mem_filter hfil
      simp at this
    · exact ih _ _ n hmem hin

/-- C7: every temporary image created during an ExportImage call is
absent from the store on return; the events are the creations in order,
then (when no step failed) the archive write, then the synchronous
deletes in reverse creation order; the returned error is the first step
error, else the archive error. -/
theorem exportImage_tmp_cleanup (w : ExpWorld) (store : List String) :
    (∀ n ∈ expCreated w.steps, n ∉ (exportImage w store).1) ∧
    (exportImage w store).2.1 =
      (expCreated w.steps).map ExpEvent.create ++
        (match expLoopErr w.steps with
          | some _ => ([] : List ExpEvent)
          | none => [ExpEvent.archiveWrite]) ++
        (expCreated w.steps).reverse.map (fun n => ExpEvent.delete n true) ∧
    (exportImage w store).2.2 =
      (match expLoopErr w.steps with
        | some e => some e
        | none => w.exportErr) := by
  unfold exportImage
  rw [exportLoop_spec]
  cases herr : expLoopErr w.steps with
  | some e =>
    refine ⟨?_, ?_, ?_⟩
    · intro n hn
      exact runDefers_store_not_mem _ _ _ n (by simp [hn])
    · simp [runDefers_events]
    · simp
  | none =>
    refine ⟨?_, ?_, ?_⟩
    · intro n hn
      exact runDefers_store_not_mem _ _ _ n (by simp [hn])
    · simp [runDefers_events]
    · simp

/-- Run of the LoadImage loop returning no error: every listed image was
found already unpacked, or had its unpack check fail and was skipped, or
had an unpack attempted that succeeded. -/
theorem loadLoop_no_error :
    ∀ (l : List LoadImg), (loadLoop l).2 = none →
      ∀ img ∈ l,
        LoadEvent.alreadyUnpacked img.name ∈ (loadLoop l).1 ∨
        LoadEvent.checkFailed img.name ∈ (loadLoop l).1 ∨
        LoadEvent.unpackAttempt img.name false ∈ (loadLoop l).1 := by
  intro l
  induction l with
  | nil => intro _ img hmem; simp at hmem
  | cons i rest ih =>
    intro h img hmem
    cases hi : i.isUnpackedRes with
    | error e =>
      simp only [loadLoop, hi] at h ⊢
      rcases List.mem_cons.1 hmem with heq | hmem2
      · subst heq; right; left; exact List.mem_cons_self _ _
      · rcases ih h img hmem2 with h1 | h1 | h1
        · exact Or.inl (List.mem_cons_of_mem _ h1)
        · exact Or.inr (Or.inl (List.mem_cons_of_mem _ h1))
        · exact Or.inr (Or.inr (List.mem_cons_of_mem _ h1))
    | ok b =>
      cases b with
      | true =>
        simp only [loadLoop, hi] at h ⊢
        rcases List.mem_cons.1 hmem with heq | hmem2
        · subst heq; left; exact List.mem_cons_self _ _
        · rcases ih h img hmem2 with h1 | h1 | h1
          · exact Or.inl (List.mem_cons_of_mem _ h1)
          · exact Or.inr (Or.inl (List.mem_cons_of_mem _ h1))
          · exact Or.inr (Or.inr (List.mem_cons_of_mem _ h1))
      | false =>
        cases hu : i.unpackErr with
        | some e => simp [loadLoop, hi, hu] at h
        | none =>
          simp only [loadLoop, hi, hu] at h ⊢
          rcases List.mem_cons.1 hmem with heq | hmem2
          · subst heq; right; right; exact List.mem_cons_self _ _
          · rcases ih h img hmem2 with h1 | h1 | h1
            · exact Or.inl (List.mem_cons_of_mem _ h1)
            · exact Or.inr (Or.inl (List.mem_cons_of_mem _ h1))
            · exact Or.inr (Or.inr (List.mem_cons_of_mem _ h1))

/-- The LoadImage loop returns an error exactly when some unpack attempt
failed. -/
theorem loadLoop_error_iff :
    ∀ (l : List LoadImg),
      (loadLoop l).2 ≠ none ↔
        ∃ n, LoadEvent.unpackAttempt n true ∈ (loadLoop l).1 := by
  intro l
  induction l with
  | nil => simp [loadLoop]
  | cons i rest ih =>
    cases hi : i.isUnpackedRes with
    | error e => simpa [loadLoop, hi] using ih
    | ok b =>
      cases b with
      | true => simpa [loadLoop, hi] using ih
      | false =>
        cases hu : i.unpackErr with
        | some e =>
          simp only [loadLoop, hi, hu]
          constructor
          · intro _; exact ⟨i.name, by simp⟩
          · intro _; simp
        | none => simpa [loadLoop, hi, hu] using ih

/-- Any error the LoadImage loop returns is the unpack-failure wrap. -/
theorem loadLoop_error_wrapped :
    ∀ (l : List LoadImg) (e : GoErr), (loadLoop l).2 = some e →
      ∃ u, e = GoErr.wrapMsg "failed to unpack image" u := by
  intro l
  induction l with
  | nil => intro e h; simp [loadLoop] at h
  | cons i rest ih =>
    intro e h
    cases hi : i.isUnpackedRes with
    | error e2 =>
      simp only [loadLoop, hi] at h
      exact ih e h
    | ok b =>
      cases b with
      | true =>
        simp only [loadLoop, hi] at h
        exact ih e h
      | false =>
        cases hu : i.unpackErr with
        | some e2 =>
          simp only [loadLoop, hi, hu] at h
          exact ⟨e2, by injection h with h2; rw [← h2]⟩
        | none =>
          simp only [loadLoop, hi, hu] at h
          exact ih e h

/-- C8: when the engine Import succeeds, a run returning no error has
handled every returned image (already unpacked, check-failed and
skipped, or successfully unpacked); an error is returned exactly when
some unpack attempt failed, and that error is the unpack-failure wrap. -/
theorem loadImage_unpack_policy (w : LoadWorld) (imgs : List LoadImg)
    (h : w.importRes = .ok imgs) :
    ((loadImage w).2 = none →
        ∀ img ∈ imgs,
          LoadEvent.alreadyUnpacked img.name ∈ (loadImage w).1 ∨
          LoadEvent.checkFailed img.name ∈ (loadImage w).1 ∨
          LoadEvent.unpackAttempt img.name false ∈ (loadImage w).1) ∧
    ((loadImage w).2 ≠ none ↔
        ∃ n, LoadEvent.unpackAttempt n true ∈ (loadImage w).1) ∧
    (∀ e, (loadImage w).2 = some e →
        ∃ u, e = GoErr.wrapMsg "failed to unpack image" u) := by
  have hl : loadImage w = loadLoop imgs := by
    simp [loadImage, h]
  rw [hl]
  exact ⟨loadLoop_no_error imgs, loadLoop_error_iff imgs,
    loadLoop_error_wrapped imgs⟩

/-- Sample export world creating two temporary images with no failures. -/
def expWorldSample : ExpWorld :=
  ⟨[⟨some (.byName "a"), some "tmp1", none⟩,
    ⟨some (.byName "b"), some "tmp2", none⟩], none⟩

/-- Witness for C7: the first temporary image name is gone from the
store when the sample export returns. -/
theorem exportImage_tmp_cleanup_witness :
    "tmp1" ∉ (exportImage expWorldSample ["keep"]).1 :=
  (exportImage_tmp_cleanup expWorldSample ["keep"]).1 "tmp1" (by decide)

/-- Image already unpacked in the sample import world. -/
def loadImgUnpacked : LoadImg := ⟨"img1", .ok true, none⟩

/-- Image whose unpack check fails in the sample import world. -/
def loadImgCheckFail : LoadImg := ⟨"img2", .error (.base "stat failed"), none⟩

/-- Image needing a successful unpack in the sample import world. -/
def loadImgNeedsUnpack : LoadImg := ⟨"img3", .ok false, none⟩

/-- Sample import result list. -/
def loadImgsSample : List LoadImg :=
  [loadImgUnpacked, loadImgCheckFail, loadImgNeedsUnpack]

/-- Sample import world. -/
def loadWorldSample : LoadWorld := ⟨.ok loadImgsSample⟩

/-- Witness for C8: in the sample world the call succeeds and the third
image was handled (here: its unpack was attempted and succeeded). -/
theorem loadImage_unpack_policy_witness :
    LoadEvent.alreadyUnpacked "img3" ∈ (loadImage loadWorldSample).1 ∨
    LoadEvent.checkFailed "img3" ∈ (loadImage loadWorldSample).1 ∨
    LoadEvent.unpackAttempt "img3" false ∈ (loadImage loadWorldSample).1 :=
  (loadImage_unpack_policy loadWorldSample loadImgsSample rfl).1 rfl
    loadImgNeedsUnpack
    (List.mem_cons_of_mem _ (List.mem_cons_of_mem _ (List.mem_cons_self _ _)))

end Moby
